import Mathlib

/-!
Verification of the EB-Traker proposal workflow engine.

The repository file api/proposals.js contains several generations of the
same serverless endpoint.  This development embeds the three generations
the claims refer to:

* `FullVariant`  — the firebase-config generation (createProposal,
  getProposals, updateProposal with status preconditions, deleteProposal,
  createWorkflowNotifications, checkProposalAccess).
* `RestVariant`  — the firebase-rest generation (updateProposal without
  status preconditions).
* `AdminVariant` — the firebase-admin generation (GET handler that lists
  every proposal without role scoping).

JavaScript strings are Lean `String`s, parsed floats are `Rat`
(`Option Rat` where the source can hold NaN), ISO timestamps are opaque
strings supplied as parameters, and the Firestore collections are lists
carried in an explicit `Store`.
-/

/-- JavaScript `a || d` for strings: the empty string is falsy. -/
def strOr (o : Option String) (d : String) : String :=
  match o with
  | some s => if s = "" then d else s
  | none => d

/-- JavaScript `a || null` for strings: empty or absent becomes null. -/
def strOrNone (o : Option String) : Option String :=
  match o with
  | some s => if s = "" then none else some s
  | none => none

/-- JavaScript `a || b` where both sides are nullable strings. -/
def optOr (a b : Option String) : Option String :=
  match a with
  | some s => if s = "" then b else some s
  | none => b

/-- Template interpolation of a parsed number (`none` is NaN). -/
def showNum (o : Option Rat) : String :=
  match o with
  | some v => toString v
  | none => "NaN"

/-- Template interpolation of a possibly absent string. -/
def showOptStr (o : Option String) : String :=
  o.getD "undefined"

/-- NaN-propagating arithmetic on parsed JavaScript numbers. -/
def nanAdd (a b : Option Rat) : Option Rat :=
  match a, b with
  | some x, some y => some (x + y)
  | _, _ => none

def nanSub (a b : Option Rat) : Option Rat :=
  match a, b with
  | some x, some y => some (x - y)
  | _, _ => none

def nanMul (a b : Option Rat) : Option Rat :=
  match a, b with
  | some x, some y => some (x * y)
  | _, _ => none

def nanDiv (a b : Option Rat) : Option Rat :=
  match a, b with
  | some x, some y => some (x / y)
  | _, _ => none

/-- JavaScript `parseFloat(x) || 0`: absent or NaN (modelled `none`) and 0
both give 0. -/
def numOr0 (o : Option Rat) : Rat :=
  o.getD 0

/-- JavaScript `a || d` for lists (an absent field becomes the default). -/
def listOr (o : Option (List String)) (d : List String) : List String :=
  o.getD d

/-- `action.replace(/_/g, ' ')`. -/
def underscoresToSpaces (s : String) : String :=
  s.map (fun c => if c = '_' then ' ' else c)

/-- The authenticated actor, as produced by the verifyToken middleware. -/
structure User where
  uid : String
  name : String
  email : String
  role : String
deriving Repr, DecidableEq

/-- One entry of a proposal changeLog. -/
structure ChangeLogEntry where
  timestamp : String
  action : String
  performedBy : String
  performedByName : String
  details : String
deriving Repr, DecidableEq

/-- A record of the activities collection (helpers.logActivity appends the
payload together with a timestamp; the full generation also passes a
metadata object on workflow updates). -/
structure Activity where
  type : String
  proposalId : String
  projectName : String
  clientCompany : String
  performedBy : String
  performedByName : String
  performedByRole : String
  details : String
  timestamp : String
  metaAction : Option String
  metaPreviousStatus : Option String
  metaNewStatus : Option String
deriving Repr, DecidableEq

/-- A document of the notifications collection.  Fields that a given
writer may leave absent are `Option`; `none` means the field is not
present on the stored document. -/
structure NotificationDoc where
  recipientId : Option String
  recipientUid : Option String
  recipientRole : Option String
  type : String
  title : String
  message : String
  proposalId : String
  priority : String
  read : Option Bool
  isRead : Option Bool
  actionUrl : String
  metaFromStatus : Option String
  metaToStatus : String
  metaProjectName : String
  metaClientCompany : String
  createdAt : String
deriving Repr, DecidableEq

/-- A document of the users collection (used by the notification
fan-out to resolve role targets). -/
structure UserDoc where
  id : String
  name : String
  role : String
  status : String
deriving Repr, DecidableEq

/-- A document of the files collection (only the fields the proposal
endpoint could touch). -/
structure FileDoc where
  id : String
  proposalId : String
  originalName : String
  fileName : String
  fileType : String
  uploadedByUid : String
deriving Repr, DecidableEq

/-- `collection.find` by document id (`key` projects the id). -/
def findById {α : Type} (key : α → String) (l : List α) (id : String) : Option α :=
  match l with
  | [] => none
  | x :: xs => if key x = id then some x else findById key xs id

/-- Firestore `doc(id).update`: every stored document carrying `id` is
replaced by the updated document. -/
def replaceById {α : Type} (key : α → String) (l : List α) (id : String) (v : α) : List α :=
  match l with
  | [] => []
  | x :: xs => (if key x = id then v else x) :: replaceById key xs id v

/-- Firestore `doc(id).set`: overwrite the document when present,
otherwise append it. -/
def setById {α : Type} (key : α → String) (l : List α) (id : String) (v : α) : List α :=
  if l.any (fun x => key x == id) then replaceById key l id v else l ++ [v]

theorem findById_replaceById_self {α : Type} (key : α → String) (l : List α)
    (id : String) (v : α) (hv : key v = id) (h : (findById key l id).isSome) :
    findById key (replaceById key l id v) id = some v := by
  induction l with
  | nil => simp [findById] at h
  | cons a t ih =>
    by_cases ha : key a = id
    · simp [findById, replaceById, ha, hv]
    · simp only [findById, replaceById, ha, if_false, if_neg ha] at h ⊢
      exact ih h

theorem findById_replaceById_ne {α : Type} (key : α → String) (l : List α)
    (id id2 : String) (v : α) (hv : key v = id) (hne : id2 ≠ id) :
    findById key (replaceById key l id v) id2 = findById key l id2 := by
  induction l with
  | nil => rfl
  | cons a t ih =>
    by_cases ha : key a = id
    · have hv2 : key v ≠ id2 := by rw [hv]; exact fun h => hne h.symm
      have ha2 : key a ≠ id2 := by rw [ha]; exact fun h => hne h.symm
      simp only [findById, replaceById, if_pos ha, if_neg hv2, if_neg ha2]
      exact ih
    · by_cases hb : key a = id2
      · simp [findById, replaceById, if_neg ha, if_pos hb]
      · simp only [findById, replaceById, if_neg ha, if_neg hb]
        exact ih

theorem findById_append_of_isSome {α : Type} (key : α → String) (l m : List α)
    (id : String) (h : (findById key l id).isSome) :
    findById key (l ++ m) id = findById key l id := by
  induction l with
  | nil => simp [findById] at h
  | cons a t ih =>
    by_cases ha : key a = id
    · simp [findById, ha]
    · simp only [List.cons_append, findById, if_neg ha] at h ⊢
      exact ih h

namespace FullVariant

/-! The firebase-config generation of api/proposals.js: createProposal,
getProposals, updateProposal (with status preconditions), deleteProposal,
checkProposalAccess and createWorkflowNotifications. -/

/-- Estimation sub-record as written by the add_estimation case. -/
structure Estimation where
  designHours : Rat
  installHours : Rat
  testingHours : Rat
  pmHours : Rat
  totalHours : Rat
  quoteType : Option String
  complexity : String
  riskFactors : List String
  assumptions : String
  estimatedBy : String
  estimatedByName : String
  estimatedAt : String
  notes : String
  breakdown : Option String
deriving Repr, DecidableEq

/-- pricing.breakdown as computed by the set_pricing case.  `none` models
a JavaScript NaN (a parseFloat of a non-numeric value). -/
structure PricingBreakdown where
  laborCost : Option Rat
  materialsCost : Rat
  overheadCost : Rat
  subtotal : Option Rat
  profitAmount : Option Rat
  totalAmount : Option Rat
  profitMargin : Option Rat
deriving Repr, DecidableEq

/-- Pricing sub-record as written by the set_pricing case. -/
structure Pricing where
  hourlyRate : Option Rat
  materialsCost : Rat
  overheadCost : Rat
  profitMargin : Option Rat
  quoteValue : Option Rat
  currency : String
  validityPeriod : String
  paymentTerms : String
  breakdown : PricingBreakdown
  pricedBy : String
  pricedByName : String
  pricedAt : String
  notes : String
  riskAdjustments : List String
deriving Repr, DecidableEq

/-- DirectorApproval sub-record; the approve and reject branches set
different field groups, absent ones stay `none`. -/
structure DirectorApproval where
  approved : Bool
  approvedBy : Option String
  approvedByName : Option String
  approvedAt : Option String
  rejectedBy : Option String
  rejectedByName : Option String
  rejectedAt : Option String
  notes : String
  rejectionReason : Option String
  conditions : List String
  strategicValue : Option String
  riskAssessment : Option String
  competitiveAdvantage : Option String
  expectedOutcome : Option String
  suggestedActions : List String
deriving Repr, DecidableEq

/-- clientSubmission sub-record written by submit_to_client. -/
structure ClientSubmission where
  submittedBy : String
  submittedByName : String
  submittedAt : String
  submissionMethod : String
  clientContact : Option String
  clientEmail : Option String
  followUpDate : Option String
  notes : String
  attachments : List String
deriving Repr, DecidableEq

/-- One stage of the workflow tracking map. -/
structure WorkflowStage where
  status : String
  assignedAt : Option String
  completedAt : Option String
  completedBy : Option String
  completedByName : Option String
  readyAt : Option String
deriving Repr, DecidableEq

/-- The workflow tracking object created with the proposal and updated by
the dotted `workflow.x` field paths. -/
structure WorkflowTracking where
  bdm_submitted : WorkflowStage
  estimation : WorkflowStage
  coo_pricing : WorkflowStage
  director_approval : WorkflowStage
  client_submission : WorkflowStage
deriving Repr, DecidableEq

/-- A proposal document of this generation. -/
structure Proposal where
  id : String
  projectName : String
  projectType : String
  clientCompany : String
  clientContact : Option String
  clientEmail : Option String
  clientPhone : Option String
  country : Option String
  scopeOfWork : String
  timeline : Option String
  priority : String
  estimatedValue : Option String
  requirements : Option String
  deliverables : Option String
  constraints : Option String
  assumptions : Option String
  status : String
  currentStage : String
  createdBy : String
  createdByName : String
  createdByEmail : String
  createdAt : String
  updatedAt : String
  workflow : WorkflowTracking
  estimation : Option Estimation
  pricing : Option Pricing
  directorApproval : Option DirectorApproval
  clientSubmission : Option ClientSubmission
  version : Option Nat
  tags : List String
  notes : List String
  changeLog : List ChangeLogEntry
  deletedAt : Option String
  deletedBy : Option String
  deletedByName : Option String
deriving Repr, DecidableEq

/-- The Firestore collections this generation of the handler touches. -/
structure Store where
  proposals : List Proposal
  activities : List Activity
  notifications : List NotificationDoc
  files : List FileDoc
  users : List UserDoc
deriving Repr, DecidableEq

/-- An HTTP response, reduced to the status code and whether the body is
the success shape. -/
structure ApiResp where
  httpStatus : Nat
  ok : Bool
deriving Repr, DecidableEq

def getById (l : List Proposal) (id : String) : Option Proposal :=
  findById (fun p => p.id) l id

/-- The `data` payload of a PUT body, fields absent unless sent. -/
structure ActionData where
  totalHours : Option Rat := none
  designHours : Option Rat := none
  installHours : Option Rat := none
  testingHours : Option Rat := none
  pmHours : Option Rat := none
  quoteType : Option String := none
  complexity : Option String := none
  riskFactors : Option (List String) := none
  assumptions : Option String := none
  notes : Option String := none
  breakdown : Option String := none
  hourlyRate : Option Rat := none
  materialsCost : Option Rat := none
  overheadCost : Option Rat := none
  profitMargin : Option Rat := none
  quoteValue : Option Rat := none
  currency : Option String := none
  validityPeriod : Option String := none
  paymentTerms : Option String := none
  riskAdjustments : Option (List String) := none
  conditions : Option (List String) := none
  strategicValue : Option String := none
  riskAssessment : Option String := none
  competitiveAdvantage : Option String := none
  expectedOutcome : Option String := none
  rejectionReason : Option String := none
  suggestedActions : Option (List String) := none
  method : Option String := none
  clientContact : Option String := none
  clientEmail : Option String := none
  followUpDate : Option String := none
  attachments : Option (List String) := none
deriving Repr, DecidableEq

/-- The status -> template table of createWorkflowNotifications. -/
structure NotifSpec where
  targetRole : Option String
  targetUserId : Option String
  title : String
  message : String
  priority : String
deriving Repr, DecidableEq

def notificationTemplate (toStatus : String) (p : Proposal) : Option NotifSpec :=
  if toStatus = "pending_estimation" then
    some { targetRole := some "estimator", targetUserId := none,
           title := "New Estimation Required",
           message := "Please estimate hours for \"" ++ p.projectName ++ "\" from " ++ p.clientCompany,
           priority := "high" }
  else if toStatus = "pending_pricing" then
    some { targetRole := some "coo", targetUserId := none,
           title := "Pricing Approval Required",
           message := "Please set pricing for \"" ++ p.projectName ++ "\" from " ++ p.clientCompany,
           priority := "high" }
  else if toStatus = "pending_director_approval" then
    some { targetRole := some "director", targetUserId := none,
           title := "Executive Approval Required",
           message := "Please review and approve \"" ++ p.projectName ++ "\" from " ++ p.clientCompany,
           priority := "high" }
  else if toStatus = "approved" then
    some { targetRole := some "bdm", targetUserId := some p.createdBy,
           title := "Proposal Approved",
           message := "\"" ++ p.projectName ++ "\" has been approved and is ready for client submission",
           priority := "medium" }
  else none

/-- Users the fan-out addresses: a truthy targetUserId wins, otherwise the
active users holding the target role. -/
def fanoutTargets (users : List UserDoc) (spec : NotifSpec) : List String :=
  let roleTargets :=
    match spec.targetRole with
    | some r => (users.filter (fun u => u.role == r && u.status == "active")).map (fun u => u.id)
    | none => []
  match spec.targetUserId with
  | some u => if u = "" then roleTargets else [u]
  | none => roleTargets

/-- createWorkflowNotifications: the batch of notification documents
written for a transition into `toStatus`. -/
def createWorkflowNotifications (users : List UserDoc) (proposalId : String)
    (fromStatus : Option String) (toStatus : String) (p : Proposal) (now : String) :
    List NotificationDoc :=
  match notificationTemplate toStatus p with
  | none => []
  | some spec =>
    (fanoutTargets users spec).map (fun uid =>
      { recipientId := some uid, recipientUid := none, recipientRole := none,
        type := "workflow_progression", title := spec.title, message := spec.message,
        proposalId := proposalId, priority := spec.priority,
        read := some false, isRead := none,
        actionUrl := "/proposals/" ++ proposalId,
        metaFromStatus := fromStatus, metaToStatus := toStatus,
        metaProjectName := p.projectName, metaClientCompany := p.clientCompany,
        createdAt := now })

/-- The updated proposal built by the add_estimation case (after the role
and status guards have passed). -/
def applyAddEstimation (p : Proposal) (user : User) (data : ActionData) (now : String) : Proposal :=
  { p with
    updatedAt := now
    version := some (p.version.getD 1 + 1)
    status := "pending_pricing"
    currentStage := "pricing"
    estimation := some {
      designHours := numOr0 data.designHours
      installHours := numOr0 data.installHours
      testingHours := numOr0 data.testingHours
      pmHours := numOr0 data.pmHours
      totalHours := numOr0 data.totalHours
      quoteType := data.quoteType
      complexity := strOr data.complexity "Medium"
      riskFactors := listOr data.riskFactors []
      assumptions := strOr data.assumptions ""
      estimatedBy := user.uid
      estimatedByName := user.name
      estimatedAt := now
      notes := strOr data.notes ""
      breakdown := strOrNone data.breakdown }
    workflow := { p.workflow with
      estimation := { status := "completed", assignedAt := none, completedAt := some now,
                      completedBy := some user.uid, completedByName := some user.name,
                      readyAt := none }
      coo_pricing := { status := "pending", assignedAt := some now, completedAt := none,
                       completedBy := none, completedByName := none, readyAt := none } }
    changeLog := p.changeLog ++ [{
      timestamp := now, action := "estimation_completed",
      performedBy := user.uid, performedByName := user.name,
      details := "Estimation completed: " ++ showNum data.totalHours ++ " total hours" }] }

/-- The updated proposal built by the set_pricing case. -/
def applySetPricing (p : Proposal) (user : User) (data : ActionData) (now : String) : Proposal :=
  let laborCost : Option Rat :=
    match p.estimation with
    | some e => nanMul (some e.totalHours) data.hourlyRate
    | none => some 0
  let materialsCost := numOr0 data.materialsCost
  let overheadCost := numOr0 data.overheadCost
  let subtotal := nanAdd (nanAdd laborCost (some materialsCost)) (some overheadCost)
  let totalAmount := data.quoteValue
  let profitAmount := nanSub totalAmount subtotal
  { p with
    updatedAt := now
    version := some (p.version.getD 1 + 1)
    status := "pending_director_approval"
    currentStage := "director_approval"
    pricing := some {
      hourlyRate := data.hourlyRate
      materialsCost := materialsCost
      overheadCost := overheadCost
      profitMargin := data.profitMargin
      quoteValue := totalAmount
      currency := strOr data.currency "USD"
      validityPeriod := strOr data.validityPeriod "30 days"
      paymentTerms := strOr data.paymentTerms "Net 30"
      breakdown := {
        laborCost := laborCost
        materialsCost := materialsCost
        overheadCost := overheadCost
        subtotal := subtotal
        profitAmount := profitAmount
        totalAmount := totalAmount
        profitMargin :=
          match subtotal with
          | some s => if 0 < s then nanMul (nanDiv profitAmount (some s)) (some 100) else some 0
          | none => some 0 }
      pricedBy := user.uid
      pricedByName := user.name
      pricedAt := now
      notes := strOr data.notes ""
      riskAdjustments := listOr data.riskAdjustments [] }
    workflow := { p.workflow with
      coo_pricing := { status := "completed", assignedAt := none, completedAt := some now,
                       completedBy := some user.uid, completedByName := some user.name,
                       readyAt := none }
      director_approval := { status := "pending", assignedAt := some now, completedAt := none,
                             completedBy := none, completedByName := none, readyAt := none } }
    changeLog := p.changeLog ++ [{
      timestamp := now, action := "pricing_set",
      performedBy := user.uid, performedByName := user.name,
      details := "Pricing set: " ++ strOr data.currency "USD" ++ " " ++ showNum data.quoteValue
        ++ " with " ++ showNum data.profitMargin ++ "% margin" }] }

/-- The updated proposal built by the director_approve case. -/
def applyDirectorApprove (p : Proposal) (user : User) (data : ActionData) (now : String) : Proposal :=
  { p with
    updatedAt := now
    version := some (p.version.getD 1 + 1)
    status := "approved"
    currentStage := "approved"
    directorApproval := some {
      approved := true
      approvedBy := some user.uid
      approvedByName := some user.name
      approvedAt := some now
      rejectedBy := none, rejectedByName := none, rejectedAt := none
      notes := strOr data.notes ""
      rejectionReason := none
      conditions := listOr data.conditions []
      strategicValue := some (strOr data.strategicValue "Medium")
      riskAssessment := some (strOr data.riskAssessment "Low")
      competitiveAdvantage := some (strOr data.competitiveAdvantage "")
      expectedOutcome := some (strOr data.expectedOutcome "")
      suggestedActions := [] }
    workflow := { p.workflow with
      director_approval := { status := "completed", assignedAt := none, completedAt := some now,
                             completedBy := some user.uid, completedByName := some user.name,
                             readyAt := none }
      client_submission := { status := "ready", assignedAt := none, completedAt := none,
                             completedBy := none, completedByName := none,
                             readyAt := some now } }
    changeLog := p.changeLog ++ [{
      timestamp := now, action := "director_approved",
      performedBy := user.uid, performedByName := user.name,
      details := "Executive approval granted" }] }

/-- The updated proposal built by the director_reject case (the source
performs no status precondition check in this case). -/
def applyDirectorReject (p : Proposal) (user : User) (data : ActionData) (now : String) : Proposal :=
  { p with
    updatedAt := now
    version := some (p.version.getD 1 + 1)
    status := "rejected"
    currentStage := "rejected"
    directorApproval := some {
      approved := false
      approvedBy := none, approvedByName := none, approvedAt := none
      rejectedBy := some user.uid
      rejectedByName := some user.name
      rejectedAt := some now
      notes := strOr data.notes ""
      rejectionReason := some (strOr data.rejectionReason "")
      conditions := []
      strategicValue := none, riskAssessment := none
      competitiveAdvantage := none, expectedOutcome := none
      suggestedActions := listOr data.suggestedActions [] }
    workflow := { p.workflow with
      director_approval := { status := "rejected", assignedAt := none, completedAt := some now,
                             completedBy := some user.uid, completedByName := some user.name,
                             readyAt := none } }
    changeLog := p.changeLog ++ [{
      timestamp := now, action := "director_rejected",
      performedBy := user.uid, performedByName := user.name,
      details := "Proposal rejected: " ++ showOptStr data.rejectionReason }] }

/-- The updated proposal built by the submit_to_client case. -/
def applySubmitToClient (p : Proposal) (user : User) (data : ActionData) (now : String) : Proposal :=
  { p with
    updatedAt := now
    version := some (p.version.getD 1 + 1)
    status := "submitted_to_client"
    currentStage := "client_review"
    clientSubmission := some {
      submittedBy := user.uid
      submittedByName := user.name
      submittedAt := now
      submissionMethod := strOr data.method "email"
      clientContact := optOr data.clientContact p.clientContact
      clientEmail := optOr data.clientEmail p.clientEmail
      followUpDate := strOrNone data.followUpDate
      notes := strOr data.notes ""
      attachments := listOr data.attachments [] }
    workflow := { p.workflow with
      client_submission := { status := "completed", assignedAt := none, completedAt := some now,
                             completedBy := some user.uid, completedByName := some user.name,
                             readyAt := none } }
    changeLog := p.changeLog ++ [{
      timestamp := now, action := "submitted_to_client",
      performedBy := user.uid, performedByName := user.name,
      details := "Submitted to client via " ++ strOr data.method "email" }] }

/-- Persist an accepted transition: write the document, append the
activity record, and fan out notifications when the status changed. -/
def commitUpdate (store : Store) (user : User) (id : String) (action : String)
    (p p2 : Proposal) (now : String) : ApiResp × Store :=
  let act : Activity := {
    type := "proposal_" ++ action, proposalId := id,
    projectName := p.projectName, clientCompany := p.clientCompany,
    performedBy := user.uid, performedByName := user.name, performedByRole := user.role,
    details := underscoresToSpaces action ++ " completed for " ++ p.projectName,
    timestamp := now,
    metaAction := some action, metaPreviousStatus := some p.status,
    metaNewStatus := some p2.status }
  (⟨200, true⟩,
    { store with
      proposals := replaceById (fun q => q.id) store.proposals id p2
      activities := store.activities ++ [act]
      notifications := store.notifications ++
        (if p2.status ≠ p.status then
          createWorkflowNotifications store.users id (some p.status) p2.status p now
        else []) })

/-- PUT /proposals?id= of the firebase-config generation. -/
def updateProposal (store : Store) (user : User) (id : String) (action : String)
    (data : ActionData) (now : String) : ApiResp × Store :=
  if id = "" ∨ action = "" then (⟨400, false⟩, store)
  else
    match getById store.proposals id with
    | none => (⟨404, false⟩, store)
    | some p =>
      if action = "add_estimation" then
        if user.role ≠ "estimator" then (⟨403, false⟩, store)
        else if p.status ≠ "pending_estimation" then (⟨400, false⟩, store)
        else commitUpdate store user id action p (applyAddEstimation p user data now) now
      else if action = "set_pricing" then
        if user.role ≠ "coo" then (⟨403, false⟩, store)
        else if p.status ≠ "pending_pricing" then (⟨400, false⟩, store)
        else commitUpdate store user id action p (applySetPricing p user data now) now
      else if action = "director_approve" then
        if user.role ≠ "director" then (⟨403, false⟩, store)
        else if p.status ≠ "pending_director_approval" then (⟨400, false⟩, store)
        else commitUpdate store user id action p (applyDirectorApprove p user data now) now
      else if action = "director_reject" then
        if user.role ≠ "director" then (⟨403, false⟩, store)
        else commitUpdate store user id action p (applyDirectorReject p user data now) now
      else if action = "submit_to_client" then
        if user.role ≠ "bdm" then (⟨403, false⟩, store)
        else if p.status ≠ "approved" then (⟨400, false⟩, store)
        else commitUpdate store user id action p (applySubmitToClient p user data now) now
      else (⟨400, false⟩, store)

/-- The POST body of this generation. -/
structure CreateBody where
  projectName : String := ""
  projectType : String := ""
  clientCompany : String := ""
  clientContact : Option String := none
  clientEmail : Option String := none
  clientPhone : Option String := none
  country : Option String := none
  scopeOfWork : String := ""
  timeline : Option String := none
  priority : Option String := none
  estimatedValue : Option String := none
  requirements : Option String := none
  deliverables : Option String := none
  constraints : Option String := none
  assumptions : Option String := none
deriving Repr, DecidableEq

/-- POST /proposals of the firebase-config generation.  The role check
comes first, the required-field validation second, and only then is the
document written, the activity logged, and the estimator fan-out run. -/
def createProposal (store : Store) (user : User) (body : CreateBody)
    (newId : String) (now : String) : ApiResp × Store :=
  if user.role ≠ "bdm" then (⟨403, false⟩, store)
  else if body.projectName = "" ∨ body.clientCompany = "" ∨ body.projectType = ""
      ∨ body.scopeOfWork = "" then (⟨400, false⟩, store)
  else
    let p : Proposal := {
      id := newId
      projectName := body.projectName.trim
      projectType := body.projectType
      clientCompany := body.clientCompany.trim
      clientContact := strOrNone body.clientContact
      clientEmail := strOrNone body.clientEmail
      clientPhone := strOrNone body.clientPhone
      country := body.country
      scopeOfWork := body.scopeOfWork.trim
      timeline := body.timeline
      priority := strOr body.priority "Medium"
      estimatedValue := strOrNone body.estimatedValue
      requirements := strOrNone body.requirements
      deliverables := strOrNone body.deliverables
      constraints := strOrNone body.constraints
      assumptions := strOrNone body.assumptions
      status := "pending_estimation"
      currentStage := "estimation"
      createdBy := user.uid
      createdByName := user.name
      createdByEmail := user.email
      createdAt := now
      updatedAt := now
      workflow := {
        bdm_submitted := { status := "completed", assignedAt := none, completedAt := some now,
                           completedBy := some user.uid, completedByName := some user.name,
                           readyAt := none }
        estimation := { status := "pending", assignedAt := some now, completedAt := none,
                        completedBy := none, completedByName := none, readyAt := none }
        coo_pricing := { status := "pending", assignedAt := none, completedAt := none,
                         completedBy := none, completedByName := none, readyAt := none }
        director_approval := { status := "pending", assignedAt := none, completedAt := none,
                               completedBy := none, completedByName := none, readyAt := none }
        client_submission := { status := "pending", assignedAt := none, completedAt := none,
                               completedBy := none, completedByName := none, readyAt := none } }
      estimation := none
      pricing := none
      directorApproval := none
      clientSubmission := none
      version := some 1
      tags := []
      notes := []
      changeLog := [{ timestamp := now, action := "created", performedBy := user.uid,
                      performedByName := user.name, details := "Proposal created" }]
      deletedAt := none, deletedBy := none, deletedByName := none }
    let act : Activity := {
      type := "proposal_created", proposalId := newId,
      projectName := body.projectName, clientCompany := body.clientCompany,
      performedBy := user.uid, performedByName := user.name, performedByRole := user.role,
      details := "New proposal created for " ++ body.clientCompany ++ ": " ++ body.projectName,
      timestamp := now, metaAction := none, metaPreviousStatus := none, metaNewStatus := none }
    (⟨201, true⟩,
      { store with
        proposals := setById (fun q => q.id) store.proposals newId p
        activities := store.activities ++ [act]
        notifications := store.notifications ++
          createWorkflowNotifications store.users newId none "pending_estimation" p now })

/-- DELETE /proposals?id= of the firebase-config generation: permission
checks, then a soft delete (the document is updated in place, nothing is
removed and the files collection is untouched). -/
def deleteProposal (store : Store) (user : User) (id : String) (now : String) :
    ApiResp × Store :=
  if id = "" then (⟨400, false⟩, store)
  else
    match getById store.proposals id with
    | none => (⟨404, false⟩, store)
    | some p =>
      if p.createdBy ≠ user.uid ∧ user.role ≠ "director" then (⟨403, false⟩, store)
      else if p.status ≠ "pending_estimation" ∧ user.role ≠ "director" then (⟨400, false⟩, store)
      else
        let p2 := { p with
          status := "deleted"
          deletedAt := some now
          deletedBy := some user.uid
          deletedByName := some user.name }
        let act : Activity := {
          type := "proposal_deleted", proposalId := id,
          projectName := p.projectName, clientCompany := p.clientCompany,
          performedBy := user.uid, performedByName := user.name, performedByRole := user.role,
          details := "Proposal deleted: " ++ p.projectName,
          timestamp := now, metaAction := none, metaPreviousStatus := none,
          metaNewStatus := none }
        (⟨200, true⟩,
          { store with
            proposals := replaceById (fun q => q.id) store.proposals id p2
            activities := store.activities ++ [act] })

/-- checkProposalAccess of the firebase-config generation. -/
def checkProposalAccess (p : Proposal) (role uid : String) : Bool :=
  if role = "bdm" then p.createdBy == uid
  else if role = "estimator" then p.status == "pending_estimation"
  else if role = "coo" then
    p.status == "pending_pricing" || p.status == "pending_director_approval"
      || p.status == "approved"
  else if role = "director" then true
  else false

/-- GET /proposals?id= of the firebase-config generation. -/
def getProposalById (store : Store) (user : User) (id : String) : Except Nat Proposal :=
  match getById store.proposals id with
  | none => .error 404
  | some p => if checkProposalAccess p user.role user.uid then .ok p else .error 403

/-- Query parameters of the GET list endpoint. -/
structure ListParams where
  status : Option String := none
  clientCompany : Option String := none
  projectType : Option String := none
  priority : Option String := none
  dateFrom : Option String := none
  dateTo : Option String := none
  sortBy : String := "createdAt"
  sortOrder : String := "desc"
  offset : Nat := 0
  limit : Nat := 50
  search : Option String := none
deriving Repr, DecidableEq

/-- JavaScript `hay.includes(needle)`. -/
def strIncludes (hay needle : String) : Bool :=
  (List.range (hay.length + 1)).any (fun i => needle.isPrefixOf (hay.drop i))

/-- The client-side search filter (term already lower-cased). -/
def matchesSearch (term : String) (p : Proposal) : Bool :=
  strIncludes p.projectName.toLower term || strIncludes p.clientCompany.toLower term
    || strIncludes p.scopeOfWork.toLower term

/-- Role-based query scoping of the GET list endpoint. -/
def roleScope (store : Store) (user : User) : Except Nat (List Proposal) :=
  if user.role = "bdm" then
    .ok (store.proposals.filter (fun p => p.createdBy == user.uid))
  else if user.role = "estimator" then
    .ok (store.proposals.filter (fun p => p.status == "pending_estimation"))
  else if user.role = "coo" then
    .ok (store.proposals.filter (fun p => p.status == "pending_pricing"))
  else if user.role = "director" then .ok store.proposals
  else .error 403

def applyStatusFilter (ps : Option String) (l : List Proposal) : List Proposal :=
  match ps with
  | none => l
  | some s =>
    let arr := s.splitOn ","
    if arr.length = 1 then l.filter (fun p => p.status == s)
    else l.filter (fun p => arr.contains p.status)

def applyEqFilter (f : Proposal → String) (v : Option String) (l : List Proposal) :
    List Proposal :=
  match v with
  | none => l
  | some s => l.filter (fun p => f p == s)

def sortField (sortBy : String) : String :=
  if ["createdAt", "updatedAt", "projectName", "clientCompany"].contains sortBy then sortBy
  else "createdAt"

def keyOf (field : String) (p : Proposal) : String :=
  if field = "updatedAt" then p.updatedAt
  else if field = "projectName" then p.projectName
  else if field = "clientCompany" then p.clientCompany
  else p.createdAt

/-- The filter, sort, pagination and search stages the GET list endpoint
applies to the role-scoped documents. -/
def queryPipeline (params : ListParams) (l0 : List Proposal) : List Proposal :=
  let l1 := applyStatusFilter params.status l0
  let l2 := applyEqFilter (fun p => p.clientCompany) params.clientCompany l1
  let l3 := applyEqFilter (fun p => p.projectType) params.projectType l2
  let l4 := applyEqFilter (fun p => p.priority) params.priority l3
  let l5 := match params.dateFrom with
    | none => l4
    | some d => l4.filter (fun p => decide (d ≤ p.createdAt))
  let l6 := match params.dateTo with
    | none => l5
    | some d => l5.filter (fun p => decide (p.createdAt ≤ d))
  let f := sortField params.sortBy
  let l7 :=
    if params.sortOrder = "asc" then l6.insertionSort (fun a b => keyOf f a ≤ keyOf f b)
    else l6.insertionSort (fun a b => keyOf f b ≤ keyOf f a)
  let l8 := (if params.offset > 0 then l7.drop params.offset else l7).take params.limit
  let l9 := match params.search with
    | none => l8
    | some s => l8.filter (matchesSearch s.toLower)
  l9

/-- GET /proposals of the firebase-config generation, at the level of the
selected documents (the `detailed=true` shape; the summary projection
below is applied otherwise). -/
def getProposals (store : Store) (user : User) (params : ListParams) :
    Except Nat (List Proposal) :=
  match roleScope store user with
  | .error c => .error c
  | .ok l0 => .ok (queryPipeline params l0)

/-- The summary row returned when `detailed` is not requested. -/
structure ProposalSummary where
  id : String
  projectName : String
  clientCompany : String
  projectType : String
  status : String
  priority : String
  estimatedValue : Option String
  createdAt : String
  updatedAt : String
  createdByName : String
  currentStage : String
  timeline : Option String
deriving Repr, DecidableEq

def toSummary (p : Proposal) : ProposalSummary :=
  { id := p.id, projectName := p.projectName, clientCompany := p.clientCompany,
    projectType := p.projectType, status := p.status, priority := p.priority,
    estimatedValue := p.estimatedValue, createdAt := p.createdAt, updatedAt := p.updatedAt,
    createdByName := p.createdByName, currentStage := p.currentStage, timeline := p.timeline }

end FullVariant

namespace RestVariant

/-! The firebase-rest generation of api/proposals.js.  Its updateProposal
performs the per-action role checks but no status precondition checks. -/

/-- Estimation sub-record of this generation. -/
structure Estimation where
  totalHours : Rat
  quoteType : Option String
  estimatedBy : String
  estimatedByName : String
  estimatedAt : String
  notes : String
deriving Repr, DecidableEq

/-- Pricing sub-record of this generation (`none` models NaN). -/
structure Pricing where
  hourlyRate : Option Rat
  profitMargin : Option Rat
  quoteValue : Option Rat
  pricedBy : String
  pricedByName : String
  pricedAt : String
deriving Repr, DecidableEq

/-- DirectorApproval sub-record of this generation. -/
structure DirectorApproval where
  approved : Bool
  approvedBy : Option String
  approvedByName : Option String
  approvedAt : Option String
  rejectedBy : Option String
  rejectedByName : Option String
  rejectedAt : Option String
  notes : Option String
  rejectionReason : Option String
deriving Repr, DecidableEq

/-- A proposal document of this generation. -/
structure Proposal where
  id : String
  projectName : String
  projectType : String
  clientCompany : String
  scopeOfWork : String
  priority : String
  status : String
  currentStage : String
  createdBy : String
  createdByName : String
  createdByEmail : String
  createdAt : String
  updatedAt : String
  estimation : Option Estimation
  pricing : Option Pricing
  directorApproval : Option DirectorApproval
  changeLog : List ChangeLogEntry
deriving Repr, DecidableEq

/-- The collections this generation of updateProposal touches. -/
structure Store where
  proposals : List Proposal
  activities : List Activity
deriving Repr, DecidableEq

def getById (l : List Proposal) (id : String) : Option Proposal :=
  findById (fun p => p.id) l id

/-- The per-action update of this generation (no status preconditions). -/
def applyAction (p : Proposal) (user : User) (action : String)
    (data : FullVariant.ActionData) (now : String) : Option (Except Nat Proposal) :=
  if action = "add_estimation" then
    if user.role ≠ "estimator" then some (.error 403)
    else some (.ok { p with
      updatedAt := now
      status := "pending_pricing"
      currentStage := "pricing"
      estimation := some {
        totalHours := numOr0 data.totalHours
        quoteType := data.quoteType
        estimatedBy := user.uid
        estimatedByName := user.name
        estimatedAt := now
        notes := strOr data.notes "" } })
  else if action = "set_pricing" then
    if user.role ≠ "coo" then some (.error 403)
    else some (.ok { p with
      updatedAt := now
      status := "pending_director_approval"
      currentStage := "director_approval"
      pricing := some {
        hourlyRate := data.hourlyRate
        profitMargin := data.profitMargin
        quoteValue := data.quoteValue
        pricedBy := user.uid
        pricedByName := user.name
        pricedAt := now } })
  else if action = "director_approve" then
    if user.role ≠ "director" then some (.error 403)
    else some (.ok { p with
      updatedAt := now
      status := "approved"
      currentStage := "approved"
      directorApproval := some {
        approved := true
        approvedBy := some user.uid
        approvedByName := some user.name
        approvedAt := some now
        rejectedBy := none, rejectedByName := none, rejectedAt := none
        notes := some (strOr data.notes "")
        rejectionReason := none } })
  else if action = "director_reject" then
    if user.role ≠ "director" then some (.error 403)
    else some (.ok { p with
      updatedAt := now
      status := "rejected"
      currentStage := "rejected"
      directorApproval := some {
        approved := false
        approvedBy := none, approvedByName := none, approvedAt := none
        rejectedBy := some user.uid
        rejectedByName := some user.name
        rejectedAt := some now
        notes := none
        rejectionReason := some (strOr data.rejectionReason "") } })
  else if action = "submit_to_client" then
    if user.role ≠ "bdm" then some (.error 403)
    else some (.ok { p with
      updatedAt := now
      status := "submitted_to_client"
      currentStage := "client_review" })
  else none

/-- PUT /proposals?id= of the firebase-rest generation. -/
def updateProposal (store : Store) (user : User) (id : String) (action : String)
    (data : FullVariant.ActionData) (now : String) : FullVariant.ApiResp × Store :=
  if id = "" ∨ action = "" then (⟨400, false⟩, store)
  else
    match getById store.proposals id with
    | none => (⟨404, false⟩, store)
    | some p =>
      match applyAction p user action data now with
      | none => (⟨400, false⟩, store)
      | some (.error c) => (⟨c, false⟩, store)
      | some (.ok p1) =>
        let p2 := { p1 with changeLog := p.changeLog ++ [{
          timestamp := now, action := action,
          performedBy := user.uid, performedByName := user.name,
          details := underscoresToSpaces action ++ " completed" }] }
        let act : Activity := {
          type := "proposal_" ++ action, proposalId := id,
          projectName := p.projectName, clientCompany := p.clientCompany,
          performedBy := user.uid, performedByName := user.name,
          performedByRole := user.role,
          details := underscoresToSpaces action ++ " completed for " ++ p.projectName,
          timestamp := now, metaAction := none, metaPreviousStatus := none,
          metaNewStatus := none }
        (⟨200, true⟩,
          { store with
            proposals := replaceById (fun q => q.id) store.proposals id p2
            activities := store.activities ++ [act] })

end RestVariant

namespace AdminVariant

/-! The firebase-admin generation of api/proposals.js.  Its GET handler
returns every proposal ordered newest first, with no role scoping. -/

/-- A proposal document of this generation (fields its POST writes). -/
structure Proposal where
  id : String
  projectName : String
  clientCompany : String
  projectType : String
  scopeOfWork : String
  priority : String
  country : String
  timeline : String
  status : String
  createdAt : String
  createdByUid : String
  createdByName : String
  createdByRole : String
  changeLog : List ChangeLogEntry
deriving Repr, DecidableEq

/-- GET /proposals of the firebase-admin generation: the whole collection
ordered by createdAt descending, regardless of the requesting role. -/
def handleGet (_user : User) (proposals : List Proposal) : List Proposal :=
  proposals.insertionSort (fun a b => b.createdAt ≤ a.createdAt)

end AdminVariant

theorem findById_eq_key {α : Type} (key : α → String) (l : List α) (id : String)
    (x : α) (h : findById key l id = some x) : key x = id := by
  induction l with
  | nil => simp [findById] at h
  | cons a t ih =>
    by_cases ha : key a = id
    · simp only [findById, if_pos ha] at h
      cases h
      exact ha
    · simp only [findById, if_neg ha] at h
      exact ih h

/-! Concrete fixtures used by witnesses and counterexamples. -/

def uBdm : User := { uid := "u1", name := "Ann Lee", email := "ann@x.com", role := "bdm" }

def uEst : User := { uid := "u2", name := "Eli Ng", email := "eli@x.com", role := "estimator" }

def uCoo : User := { uid := "u3", name := "Cam Oh", email := "cam@x.com", role := "coo" }

def uDir : User := { uid := "u4", name := "Dee Orr", email := "dee@x.com", role := "director" }

def wfInit : FullVariant.WorkflowTracking := {
  bdm_submitted := { status := "completed", assignedAt := none, completedAt := some "t0",
                     completedBy := some "u1", completedByName := some "Ann Lee",
                     readyAt := none }
  estimation := { status := "pending", assignedAt := some "t0", completedAt := none,
                  completedBy := none, completedByName := none, readyAt := none }
  coo_pricing := { status := "pending", assignedAt := none, completedAt := none,
                   completedBy := none, completedByName := none, readyAt := none }
  director_approval := { status := "pending", assignedAt := none, completedAt := none,
                         completedBy := none, completedByName := none, readyAt := none }
  client_submission := { status := "pending", assignedAt := none, completedAt := none,
                         completedBy := none, completedByName := none, readyAt := none } }

/-- A fixture proposal of the full generation, in the given status. -/
def baseProposal (status : String) : FullVariant.Proposal := {
  id := "p1", projectName := "Depot", projectType := "Commercial",
  clientCompany := "Acme", clientContact := none, clientEmail := none,
  clientPhone := none, country := some "USA", scopeOfWork := "Wiring",
  timeline := some "30", priority := "Medium", estimatedValue := none,
  requirements := none, deliverables := none, constraints := none,
  assumptions := none, status := status, currentStage := "estimation",
  createdBy := "u1", createdByName := "Ann Lee", createdByEmail := "ann@x.com",
  createdAt := "t0", updatedAt := "t0", workflow := wfInit,
  estimation := none, pricing := none, directorApproval := none,
  clientSubmission := none, version := some 1, tags := [], notes := [],
  changeLog := [{ timestamp := "t0", action := "created", performedBy := "u1",
                  performedByName := "Ann Lee", details := "Proposal created" }],
  deletedAt := none, deletedBy := none, deletedByName := none }

def usersAll : List UserDoc := [
  { id := "u1", name := "Ann Lee", role := "bdm", status := "active" },
  { id := "u2", name := "Eli Ng", role := "estimator", status := "active" },
  { id := "u3", name := "Cam Oh", role := "coo", status := "active" },
  { id := "u4", name := "Dee Orr", role := "director", status := "active" }]

def fileF1 : FileDoc := { id := "f1", proposalId := "p1", originalName := "plan.pdf",
                          fileName := "p1-plan.pdf", fileType := "project",
                          uploadedByUid := "u1" }

/-- A fixture store of the full generation holding one proposal in the
given status, one file record and the four active users. -/
def mkStore (status : String) : FullVariant.Store := {
  proposals := [baseProposal status], activities := [], notifications := [],
  files := [fileF1], users := usersAll }

/-- Claim C7: the mark_job_won action is not implemented by the switch;
for any proposal it falls to the default branch, is rejected as an
invalid action with HTTP 400, and the store is left unchanged. -/
theorem C7_mark_job_won_invalid_action (store : FullVariant.Store) (user : User)
    (id : String) (data : FullVariant.ActionData) (now : String)
    (p : FullVariant.Proposal) (hid : id ≠ "")
    (hfound : FullVariant.getById store.proposals id = some p) :
    FullVariant.updateProposal store user id "mark_job_won" data now = (⟨400, false⟩, store) := by
  simp [FullVariant.updateProposal, hid, hfound]

/-- Witness for C7 at a concrete submitted_to_client proposal and its
creating bdm actor. -/
theorem C7_mark_job_won_invalid_action_witness :
    FullVariant.updateProposal (mkStore "submitted_to_client") uBdm "p1" "mark_job_won"
      {} "t9" = (⟨400, false⟩, mkStore "submitted_to_client") :=
  C7_mark_job_won_invalid_action (mkStore "submitted_to_client") uBdm "p1" {} "t9"
    (baseProposal "submitted_to_client") (by decide) (by rfl)

/-- Claim C7 counterexample to the claim as stated: a mark_job_won request
on a submitted_to_client proposal by the creating bdm is not accepted, the
response is 400 and the status stays submitted_to_client instead of
becoming won. -/
theorem C7_counterexample :
    (FullVariant.updateProposal (mkStore "submitted_to_client") uBdm "p1" "mark_job_won"
        {} "t9").1.httpStatus = 400 ∧
    (FullVariant.getById (FullVariant.updateProposal (mkStore "submitted_to_client") uBdm
        "p1" "mark_job_won" {} "t9").2.proposals "p1").map
      (fun q => q.status) = some "submitted_to_client" ∧
    (FullVariant.updateProposal (mkStore "submitted_to_client") uBdm "p1" "mark_job_won"
        {} "t9").2.notifications = [] := by
  refine ⟨?_, ?_, ?_⟩ <;> rfl

/-- Claim C9: a POST by a bdm actor with a required field missing is
rejected with HTTP 400 and the store is completely unchanged (no
proposal, activity or notification is written). -/
theorem C9_create_validation_before_mutation (store : FullVariant.Store) (user : User)
    (body : FullVariant.CreateBody) (newId now : String) (hrole : user.role = "bdm")
    (hmiss : body.projectName = "" ∨ body.clientCompany = "" ∨ body.projectType = ""
      ∨ body.scopeOfWork = "") :
    FullVariant.createProposal store user body newId now = (⟨400, false⟩, store) := by
  simp [FullVariant.createProposal, hrole, hmiss]

/-- Witness for C9: a body missing scopeOfWork is rejected and the store
stays empty. -/
theorem C9_create_validation_before_mutation_witness :
    FullVariant.createProposal (mkStore "pending_estimation") uBdm
      { projectName := "Depot", projectType := "Commercial", clientCompany := "Acme" }
      "p2" "t9" = (⟨400, false⟩, mkStore "pending_estimation") :=
  C9_create_validation_before_mutation (mkStore "pending_estimation") uBdm
    { projectName := "Depot", projectType := "Commercial", clientCompany := "Acme" }
    "p2" "t9" (by rfl) (by decide)

/-- Claim C1 (amended): in the firebase-config generation, the four
actions add_estimation, set_pricing, director_approve and
submit_to_client, issued by an actor whose role is permitted for the
action while the proposal is not in the required status, are rejected
with HTTP 400 and the whole store — in particular status, estimation,
pricing, directorApproval and changeLog — is left unchanged. -/
theorem C1_wrong_status_conflict_no_mutation (store : FullVariant.Store) (user : User)
    (id a reqRole reqStatus : String) (data : FullVariant.ActionData) (now : String)
    (p : FullVariant.Proposal)
    (hmem : (a, reqRole, reqStatus) ∈ [
      ("add_estimation", "estimator", "pending_estimation"),
      ("set_pricing", "coo", "pending_pricing"),
      ("director_approve", "director", "pending_director_approval"),
      ("submit_to_client", "bdm", "approved")])
    (hid : id ≠ "")
    (hfound : FullVariant.getById store.proposals id = some p)
    (hrole : user.role = reqRole)
    (hstatus : p.status ≠ reqStatus) :
    FullVariant.updateProposal store user id a data now = (⟨400, false⟩, store) := by
  fin_cases hmem <;>
    simp_all [FullVariant.updateProposal, hid, hfound]

/-- Witness for C1: set_pricing by the coo on a proposal still pending
estimation is rejected and nothing changes. -/
theorem C1_wrong_status_conflict_no_mutation_witness :
    FullVariant.updateProposal (mkStore "pending_estimation") uCoo "p1" "set_pricing"
      {} "t9" = (⟨400, false⟩, mkStore "pending_estimation") :=
  C1_wrong_status_conflict_no_mutation (mkStore "pending_estimation") uCoo "p1"
    "set_pricing" "coo" "pending_pricing" {} "t9" (baseProposal "pending_estimation")
    (by decide) (by decide) (by rfl) (by rfl) (by decide)

/-- Claim C1 counterexample to the claim as stated: director_reject is in
the list of workflow actions, yet issued by a director on a proposal in
status approved (not the required pending_director_approval) it is
accepted with HTTP 200 and the status, directorApproval and changeLog all
change. -/
theorem C1_counterexample :
    (FullVariant.updateProposal (mkStore "approved") uDir "p1" "director_reject"
        {} "t9").1 = ⟨200, true⟩ ∧
    (FullVariant.getById (FullVariant.updateProposal (mkStore "approved") uDir "p1"
        "director_reject" {} "t9").2.proposals "p1").map (fun q => q.status) =
      some "rejected" ∧
    (FullVariant.getById (FullVariant.updateProposal (mkStore "approved") uDir "p1"
        "director_reject" {} "t9").2.proposals "p1").map
      (fun q => q.changeLog.length) = some 2 ∧
    (baseProposal "approved").status = "approved" ∧
    (baseProposal "approved").changeLog.length = 1 := by
  refine ⟨rfl, rfl, rfl, rfl, rfl⟩

/-- Claim C2 (amended): director_reject issued by a director (the source
checks no status precondition here) is accepted and sets status and
currentStage to rejected and directorApproval to approved=false with
rejectedBy, rejectedByName and rejectedAt; no requiresRevisionBy target
and no revision_required status exist in the code. -/
theorem C2_director_reject_sets_rejected (store : FullVariant.Store) (user : User)
    (id : String) (data : FullVariant.ActionData) (now : String)
    (p : FullVariant.Proposal) (hid : id ≠ "")
    (hfound : FullVariant.getById store.proposals id = some p)
    (hrole : user.role = "director") :
    (FullVariant.updateProposal store user id "director_reject" data now).1 = ⟨200, true⟩ ∧
    ∃ p2, FullVariant.getById
        (FullVariant.updateProposal store user id "director_reject" data now).2.proposals id
        = some p2 ∧
      p2.status = "rejected" ∧ p2.currentStage = "rejected" ∧
      ∃ da, p2.directorApproval = some da ∧ da.approved = false ∧
        da.rejectedBy = some user.uid ∧ da.rejectedByName = some user.name ∧
        da.rejectedAt = some now := by
  have hpid : p.id = id := findById_eq_key _ _ _ _ hfound
  have hsome : (FullVariant.getById store.proposals id).isSome := by rw [hfound]; rfl
  have key : FullVariant.updateProposal store user id "director_reject" data now =
      FullVariant.commitUpdate store user id "director_reject" p
        (FullVariant.applyDirectorReject p user data now) now := by
    simp [FullVariant.updateProposal, hid, hfound, hrole]
  rw [key]
  refine ⟨rfl, FullVariant.applyDirectorReject p user data now, ?_, rfl, rfl,
    ⟨_, rfl, rfl, rfl, rfl, rfl⟩⟩
  exact findById_replaceById_self _ _ _ _ (by simpa using hpid) hsome

/-- Witness for C2 at the concrete pending_director_approval fixture. -/
theorem C2_director_reject_sets_rejected_witness :
    (FullVariant.updateProposal (mkStore "pending_director_approval") uDir "p1"
        "director_reject" {} "t9").1 = ⟨200, true⟩ ∧
    ∃ p2, FullVariant.getById
        (FullVariant.updateProposal (mkStore "pending_director_approval") uDir "p1"
          "director_reject" {} "t9").2.proposals "p1" = some p2 ∧
      p2.status = "rejected" ∧ p2.currentStage = "rejected" ∧
      ∃ da, p2.directorApproval = some da ∧ da.approved = false ∧
        da.rejectedBy = some uDir.uid ∧ da.rejectedByName = some uDir.name ∧
        da.rejectedAt = some "t9" :=
  C2_director_reject_sets_rejected (mkStore "pending_director_approval") uDir "p1" {}
    "t9" (baseProposal "pending_director_approval") (by decide) (by rfl) (by rfl)

/-- Claim C2 counterexample to the claim as stated: from
pending_director_approval, director_reject produces status rejected, which
is neither revision_required nor pending_pricing. -/
theorem C2_counterexample :
    (FullVariant.getById (FullVariant.updateProposal (mkStore "pending_director_approval")
        uDir "p1" "director_reject" {} "t9").2.proposals "p1").map (fun q => q.status)
      = some "rejected" ∧
    (some "rejected" : Option String) ≠ some "revision_required" ∧
    (some "rejected" : Option String) ≠ some "pending_pricing" ∧
    (FullVariant.updateProposal (mkStore "pending_director_approval") uDir "p1"
        "director_reject" {} "t9").1 = ⟨200, true⟩ := by
  exact ⟨rfl, by decide, by decide, rfl⟩

/-- Claim C5 (amended): a successful director_reject creates no
notification at all — the fan-out table only covers the target statuses
pending_estimation, pending_pricing, pending_director_approval and
approved, and rejected has no entry. -/
theorem C5_director_reject_no_notifications (store : FullVariant.Store) (user : User)
    (id : String) (data : FullVariant.ActionData) (now : String)
    (p : FullVariant.Proposal) (hid : id ≠ "")
    (hfound : FullVariant.getById store.proposals id = some p)
    (hrole : user.role = "director") :
    (FullVariant.updateProposal store user id "director_reject" data now).1 = ⟨200, true⟩ ∧
    (FullVariant.updateProposal store user id "director_reject" data now).2.notifications
      = store.notifications := by
  have key : FullVariant.updateProposal store user id "director_reject" data now =
      FullVariant.commitUpdate store user id "director_reject" p
        (FullVariant.applyDirectorReject p user data now) now := by
    simp [FullVariant.updateProposal, hid, hfound, hrole]
  rw [key]
  refine ⟨rfl, ?_⟩
  show store.notifications ++ _ = store.notifications
  split
  · simp [FullVariant.createWorkflowNotifications, FullVariant.notificationTemplate,
      FullVariant.applyDirectorReject]
  · simp

/-- Witness for C5 at the concrete fixture, whose users collection holds
active users of all four roles. -/
theorem C5_director_reject_no_notifications_witness :
    (FullVariant.updateProposal (mkStore "pending_director_approval") uDir "p1"
        "director_reject" {} "t9").1 = ⟨200, true⟩ ∧
    (FullVariant.updateProposal (mkStore "pending_director_approval") uDir "p1"
        "director_reject" {} "t9").2.notifications
      = (mkStore "pending_director_approval").notifications :=
  C5_director_reject_no_notifications (mkStore "pending_director_approval") uDir "p1" {}
    "t9" (baseProposal "pending_director_approval") (by decide) (by rfl) (by rfl)

/-- Claim C5 counterexample to the claim as stated: the concrete
successful director_reject leaves the notifications collection empty even
though active users of every role exist, so no notification names a
revision owner. -/
theorem C5_counterexample :
    (FullVariant.updateProposal (mkStore "pending_director_approval") uDir "p1"
        "director_reject" {} "t9").1 = ⟨200, true⟩ ∧
    (FullVariant.updateProposal (mkStore "pending_director_approval") uDir "p1"
        "director_reject" {} "t9").2.notifications = [] := by
  exact ⟨rfl, rfl⟩

/-- Claim C6 (amended): deletion is permitted only to the creator or a
director, a non-director creator is rejected with 400 unless the status is
pending_estimation, and on success the proposal is soft-deleted: the
document stays in the store with status deleted and its changeLog intact,
and the files collection is not touched. -/
theorem C6_delete_permissions_soft_delete (store : FullVariant.Store) (user : User)
    (id now : String) (p : FullVariant.Proposal) (hid : id ≠ "")
    (hfound : FullVariant.getById store.proposals id = some p) :
    (p.createdBy ≠ user.uid ∧ user.role ≠ "director" →
      FullVariant.deleteProposal store user id now = (⟨403, false⟩, store)) ∧
    (p.createdBy = user.uid ∧ user.role ≠ "director" ∧ p.status ≠ "pending_estimation" →
      FullVariant.deleteProposal store user id now = (⟨400, false⟩, store)) ∧
    (user.role = "director" ∨ (p.createdBy = user.uid ∧ p.status = "pending_estimation") →
      (FullVariant.deleteProposal store user id now).1 = ⟨200, true⟩ ∧
      (∃ p2, FullVariant.getById
          (FullVariant.deleteProposal store user id now).2.proposals id = some p2 ∧
        p2.status = "deleted" ∧ p2.changeLog = p.changeLog ∧
        p2.deletedBy = some user.uid) ∧
      (FullVariant.deleteProposal store user id now).2.files = store.files ∧
      (FullVariant.deleteProposal store user id now).2.proposals.length
        = store.proposals.length) := by
  have hpid : p.id = id := findById_eq_key _ _ _ _ hfound
  have hsome : (FullVariant.getById store.proposals id).isSome := by rw [hfound]; rfl
  refine ⟨?_, ?_, ?_⟩
  · rintro ⟨h1, h2⟩
    simp [FullVariant.deleteProposal, hid, hfound, h1, h2]
  · rintro ⟨h1, h2, h3⟩
    simp [FullVariant.deleteProposal, hid, hfound, h1, h2, h3]
  · intro h
    have key : FullVariant.deleteProposal store user id now =
        (⟨200, true⟩,
          { store with
            proposals := replaceById (fun q => q.id) store.proposals id
              { p with
                status := "deleted"
                deletedAt := some now
                deletedBy := some user.uid
                deletedByName := some user.name }
            activities := store.activities ++ [{
              type := "proposal_deleted", proposalId := id,
              projectName := p.projectName, clientCompany := p.clientCompany,
              performedBy := user.uid, performedByName := user.name,
              performedByRole := user.role,
              details := "Proposal deleted: " ++ p.projectName,
              timestamp := now, metaAction := none, metaPreviousStatus := none,
              metaNewStatus := none }] }) := by
      rcases h with hdir | ⟨hcre, hpe⟩
      · simp [FullVariant.deleteProposal, hid, hfound, hdir]
      · simp [FullVariant.deleteProposal, hid, hfound, hcre, hpe]
    rw [key]
    refine ⟨rfl, ⟨{ p with
      status := "deleted"
      deletedAt := some now
      deletedBy := some user.uid
      deletedByName := some user.name }, ?_, rfl, rfl, rfl⟩, rfl, ?_⟩
    · exact findById_replaceById_self _ _ _ _ (by simpa using hpid) hsome
    · show (replaceById (fun q => q.id) store.proposals id _).length = _
      clear hfound hsome key
      induction store.proposals with
      | nil => rfl
      | cons a t ih => simp [replaceById, ih]

/-- Witness for C6: a director deletes a pending_pricing proposal; the
rejection cases are discharged vacuously at this input and the success
case concretely. -/
theorem C6_delete_permissions_soft_delete_witness :
    (FullVariant.deleteProposal (mkStore "pending_pricing") uDir "p1" "t9").1
        = ⟨200, true⟩ ∧
    (∃ p2, FullVariant.getById
        (FullVariant.deleteProposal (mkStore "pending_pricing") uDir "p1" "t9").2.proposals
          "p1" = some p2 ∧
      p2.status = "deleted" ∧ p2.changeLog = (baseProposal "pending_pricing").changeLog ∧
      p2.deletedBy = some uDir.uid) ∧
    (FullVariant.deleteProposal (mkStore "pending_pricing") uDir "p1" "t9").2.files
      = (mkStore "pending_pricing").files ∧
    (FullVariant.deleteProposal (mkStore "pending_pricing") uDir "p1" "t9").2.proposals.length
      = (mkStore "pending_pricing").proposals.length :=
  (C6_delete_permissions_soft_delete (mkStore "pending_pricing") uDir "p1" "t9"
    (baseProposal "pending_pricing") (by decide) (by rfl)).2.2 (Or.inl (by rfl))

/-- Claim C6 counterexample to the claim as stated: after the successful
director delete the proposal document is still in the store (soft
deleted) and the files record for that proposal is still present, so
nothing was removed or cascaded. -/
theorem C6_counterexample :
    (FullVariant.deleteProposal (mkStore "pending_pricing") uDir "p1" "t9").1
        = ⟨200, true⟩ ∧
    (FullVariant.getById (FullVariant.deleteProposal (mkStore "pending_pricing") uDir
        "p1" "t9").2.proposals "p1").isSome = true ∧
    (FullVariant.deleteProposal (mkStore "pending_pricing") uDir "p1" "t9").2.files
      = [fileF1] := by
  exact ⟨rfl, rfl, rfl⟩

/-- Claim C8: an accepted add_estimation with submitted totalHours v is
followed by a GET on the same id (here by a director, who always passes
checkProposalAccess) showing status pending_pricing and
estimation.totalHours equal to v. -/
theorem C8_add_estimation_roundtrip (store : FullVariant.Store) (user dir : User)
    (id : String) (data : FullVariant.ActionData) (now : String)
    (p : FullVariant.Proposal) (v : Rat) (hid : id ≠ "")
    (hfound : FullVariant.getById store.proposals id = some p)
    (hrole : user.role = "estimator") (hstatus : p.status = "pending_estimation")
    (hv : data.totalHours = some v) (hdir : dir.role = "director") :
    (FullVariant.updateProposal store user id "add_estimation" data now).1 = ⟨200, true⟩ ∧
    ∃ p2, FullVariant.getProposalById
        (FullVariant.updateProposal store user id "add_estimation" data now).2 dir id
        = .ok p2 ∧
      p2.status = "pending_pricing" ∧
      p2.estimation.map (fun e => e.totalHours) = some v := by
  have hpid : p.id = id := findById_eq_key _ _ _ _ hfound
  have hsome : (FullVariant.getById store.proposals id).isSome := by rw [hfound]; rfl
  have key : FullVariant.updateProposal store user id "add_estimation" data now =
      FullVariant.commitUpdate store user id "add_estimation" p
        (FullVariant.applyAddEstimation p user data now) now := by
    simp [FullVariant.updateProposal, hid, hfound, hrole, hstatus]
  rw [key]
  have hget : FullVariant.getById
      (FullVariant.commitUpdate store user id "add_estimation" p
        (FullVariant.applyAddEstimation p user data now) now).2.proposals id
      = some (FullVariant.applyAddEstimation p user data now) :=
    findById_replaceById_self _ _ _ _ (by simpa using hpid) hsome
  refine ⟨rfl, FullVariant.applyAddEstimation p user data now, ?_, rfl, ?_⟩
  · simp [FullVariant.getProposalById, hget, FullVariant.checkProposalAccess, hdir]
  · simp [FullVariant.applyAddEstimation, numOr0, hv]

/-- Witness for C8 with v = 10 on the concrete fixture. -/
theorem C8_add_estimation_roundtrip_witness :
    (FullVariant.updateProposal (mkStore "pending_estimation") uEst "p1" "add_estimation"
        { totalHours := some 10 } "t9").1 = ⟨200, true⟩ ∧
    ∃ p2, FullVariant.getProposalById
        (FullVariant.updateProposal (mkStore "pending_estimation") uEst "p1"
          "add_estimation" { totalHours := some 10 } "t9").2 uDir "p1" = .ok p2 ∧
      p2.status = "pending_pricing" ∧
      p2.estimation.map (fun e => e.totalHours) = some 10 :=
  C8_add_estimation_roundtrip (mkStore "pending_estimation") uEst uDir "p1"
    { totalHours := some 10 } "t9" (baseProposal "pending_estimation") 10 (by decide)
    (by rfl) (by rfl) (by rfl) (by rfl) (by rfl)

namespace NotificationsApi

/-! The GET branch of api/notifications.js: unread notifications for the
requesting user — filtered on isRead == false, recipient-scoped by uid
for bdm actors and by role otherwise, newest first, at most 20. -/

def visibleNotifications (user : User) (ns : List NotificationDoc) : List NotificationDoc :=
  let unread := ns.filter (fun n => n.isRead == some false)
  let mine :=
    if user.role = "bdm" then unread.filter (fun n => n.recipientUid == some user.uid)
    else unread.filter (fun n => n.recipientRole == some user.role)
  (mine.insertionSort (fun a b => b.createdAt ≤ a.createdAt)).take 20

end NotificationsApi

/-- Claim C10: the fan-out writes its unread flag into a field named read
(with the recipient in recipientId), not isRead — evaluated at a concrete
director_approve transition, the single created notification has
isRead absent and read = false, and the notifications endpoint, which
filters on isRead == false and recipientUid/recipientRole, can never
return it, neither to the recipient bdm nor to anyone else. -/
theorem C10_fanout_writes_read_not_isRead :
    ((FullVariant.updateProposal (mkStore "pending_director_approval") uDir "p1"
        "director_approve" {} "t9").2.notifications).map
      (fun n => (n.recipientId, n.recipientUid, n.recipientRole, n.read, n.isRead))
      = [(some "u1", none, none, some false, none)] ∧
    NotificationsApi.visibleNotifications uBdm
      ((FullVariant.updateProposal (mkStore "pending_director_approval") uDir "p1"
        "director_approve" {} "t9").2.notifications) = [] ∧
    NotificationsApi.visibleNotifications uDir
      ((FullVariant.updateProposal (mkStore "pending_director_approval") uDir "p1"
        "director_approve" {} "t9").2.notifications) = [] := by
  exact ⟨rfl, rfl, rfl⟩

theorem subset_applyStatusFilter (ps : Option String) (l : List FullVariant.Proposal) :
    FullVariant.applyStatusFilter ps l ⊆ l := by
  cases ps with
  | none => exact fun _ h => h
  | some s =>
    simp only [FullVariant.applyStatusFilter]
    split
    · exact fun _ h => List.mem_of_mem_filter h
    · exact fun _ h => List.mem_of_mem_filter h

theorem subset_applyEqFilter (f : FullVariant.Proposal → String) (v : Option String)
    (l : List FullVariant.Proposal) : FullVariant.applyEqFilter f v l ⊆ l := by
  cases v with
  | none => exact fun _ h => h
  | some s => exact fun _ h => List.mem_of_mem_filter h

theorem subset_matchFilter {α : Type} (o : Option String) (L : List α)
    (g : String → α → Bool) :
    (match o with | none => L | some d => L.filter (g d)) ⊆ L := by
  cases o with
  | none => exact fun _ h => h
  | some d => exact fun _ h => List.mem_of_mem_filter h

theorem subset_ifDrop {α : Type} (c : Prop) [Decidable c] (n : Nat) (L : List α) :
    (if c then L.drop n else L) ⊆ L := by
  split
  · exact List.drop_subset _ _
  · exact fun _ h => h

theorem subset_ifSort {α : Type} (c : Prop) [Decidable c] (r1 r2 : α → α → Prop)
    [DecidableRel r1] [DecidableRel r2] (L : List α) :
    (if c then L.insertionSort r1 else L.insertionSort r2) ⊆ L := by
  split
  · exact (List.perm_insertionSort _ _).subset
  · exact (List.perm_insertionSort _ _).subset

theorem subset_queryPipeline (params : FullVariant.ListParams)
    (L : List FullVariant.Proposal) : FullVariant.queryPipeline params L ⊆ L := by
  intro p2 hp
  simp only [FullVariant.queryPipeline] at hp
  replace hp := subset_matchFilter params.search _
    (fun s => FullVariant.matchesSearch s.toLower) hp
  replace hp := List.take_subset _ _ hp
  replace hp := subset_ifDrop _ _ _ hp
  replace hp := subset_ifSort _ _ _ _ hp
  replace hp := subset_matchFilter params.dateTo _
    (fun d (q : FullVariant.Proposal) => decide (q.createdAt ≤ d)) hp
  replace hp := subset_matchFilter params.dateFrom _
    (fun d (q : FullVariant.Proposal) => decide (d ≤ q.createdAt)) hp
  replace hp := subset_applyEqFilter _ params.priority _ hp
  replace hp := subset_applyEqFilter _ params.projectType _ hp
  replace hp := subset_applyEqFilter _ params.clientCompany _ hp
  exact subset_applyStatusFilter params.status _ hp

/-- Claim C4 (amended): in the role-scoped getProposals of the
firebase-config generation, every proposal a bdm actor receives from the
list endpoint has createdBy equal to their own uid, whatever filters,
sorting, pagination and search are requested. -/
theorem C4_bdm_list_only_own_proposals (store : FullVariant.Store) (user : User)
    (params : FullVariant.ListParams) (l : List FullVariant.Proposal)
    (hrole : user.role = "bdm")
    (h : FullVariant.getProposals store user params = .ok l) :
    ∀ p2 ∈ l, p2.createdBy = user.uid := by
  intro p2 hp2
  have hscope : FullVariant.roleScope store user =
      .ok (store.proposals.filter (fun p => p.createdBy == user.uid)) := by
    simp [FullVariant.roleScope, hrole]
  simp only [FullVariant.getProposals, hscope, Except.ok.injEq] at h
  subst h
  have := subset_queryPipeline params _ hp2
  exact eq_of_beq (List.mem_filter.mp this).2

/-- Witness for C4 at a concrete store holding an own and a foreign
proposal: the bdm only receives the own one. -/
theorem C4_bdm_list_only_own_proposals_witness :
    FullVariant.getProposals
      { proposals := [baseProposal "pending_estimation",
          { baseProposal "pending_estimation" with id := "p9", createdBy := "u7" }],
        activities := [], notifications := [], files := [], users := usersAll }
      uBdm {} = .ok [baseProposal "pending_estimation"] ∧
    ∀ p2 ∈ [baseProposal "pending_estimation"], p2.createdBy = uBdm.uid :=
  ⟨by rfl, C4_bdm_list_only_own_proposals
    { proposals := [baseProposal "pending_estimation",
        { baseProposal "pending_estimation" with id := "p9", createdBy := "u7" }],
      activities := [], notifications := [], files := [], users := usersAll }
    uBdm {} [baseProposal "pending_estimation"] (by rfl) (by rfl)⟩

/-- A proposal of the firebase-admin generation created by another bdm. -/
def adminForeign : AdminVariant.Proposal := {
  id := "pa", projectName := "Depot", clientCompany := "Acme",
  projectType := "Commercial", scopeOfWork := "Wiring", priority := "Medium",
  country := "USA", timeline := "30", status := "pending_estimation",
  createdAt := "t0", createdByUid := "u2", createdByName := "Bo Kim",
  createdByRole := "bdm", changeLog := [] }

/-- Claim C4 counterexample to the claim as stated: the firebase-admin
GET handler returns the proposal created by uid u2 to the bdm actor with
uid u1. -/
theorem C4_counterexample :
    AdminVariant.handleGet uBdm [adminForeign] = [adminForeign] ∧
    uBdm.role = "bdm" ∧ adminForeign.createdByUid ≠ uBdm.uid := by
  refine ⟨?_, rfl, by decide⟩
  rfl

theorem restApplyAction_ok (p : RestVariant.Proposal) (user : User) (action : String)
    (data : FullVariant.ActionData) (now : String) (p1 : RestVariant.Proposal)
    (h : RestVariant.applyAction p user action data now = some (.ok p1)) :
    p1.id = p.id ∧ p1.changeLog = p.changeLog := by
  unfold RestVariant.applyAction at h
  split_ifs at h <;> simp_all <;> subst h <;> exact ⟨rfl, rfl⟩

/-- Every outcome of the full-generation updateProposal: a rejection that
leaves the store unchanged, or a commit that rewrites the document with
exactly one appended changeLog entry and appends exactly one activity. -/
theorem updateProposal_shape (store : FullVariant.Store) (user : User)
    (id action : String) (data : FullVariant.ActionData) (now : String) :
    ((FullVariant.updateProposal store user id action data now).1.ok = false ∧
      (FullVariant.updateProposal store user id action data now).2 = store) ∨
    (∃ q e p2, FullVariant.getById store.proposals id = some q ∧
      (FullVariant.updateProposal store user id action data now).1 = ⟨200, true⟩ ∧
      p2.id = q.id ∧ p2.changeLog = q.changeLog ++ [e] ∧
      e.performedBy = user.uid ∧ e.performedByName = user.name ∧ e.timestamp = now ∧
      e.action ∈ ["estimation_completed", "pricing_set", "director_approved",
        "director_rejected", "submitted_to_client"] ∧
      (FullVariant.updateProposal store user id action data now).2.proposals
        = replaceById (fun x => x.id) store.proposals id p2 ∧
      (FullVariant.updateProposal store user id action data now).2.activities
        = store.activities ++ [{
            type := "proposal_" ++ action, proposalId := id,
            projectName := q.projectName, clientCompany := q.clientCompany,
            performedBy := user.uid, performedByName := user.name,
            performedByRole := user.role,
            details := underscoresToSpaces action ++ " completed for " ++ q.projectName,
            timestamp := now, metaAction := some action,
            metaPreviousStatus := some q.status, metaNewStatus := some p2.status }] ∧
      (FullVariant.updateProposal store user id action data now).2.files = store.files ∧
      (FullVariant.updateProposal store user id action data now).2.users = store.users) := by
  by_cases h0 : id = "" ∨ action = ""
  · left
    simp [FullVariant.updateProposal, h0]
  have hid : ¬ id = "" := fun h => h0 (Or.inl h)
  have hact : ¬ action = "" := fun h => h0 (Or.inr h)
  rcases hfind : FullVariant.getById store.proposals id with _ | p
  · left
    simp [FullVariant.updateProposal, hid, hact, hfind]
  by_cases ha1 : action = "add_estimation"
  · subst ha1
    by_cases hr : user.role = "estimator"
    · by_cases hs : p.status = "pending_estimation"
      · have key : FullVariant.updateProposal store user id "add_estimation" data now =
            FullVariant.commitUpdate store user id "add_estimation" p
              (FullVariant.applyAddEstimation p user data now) now := by
          simp [FullVariant.updateProposal, hid, hfind, hr, hs]
        right
        rw [key]
        exact ⟨p, _, FullVariant.applyAddEstimation p user data now, rfl, rfl, rfl,
          rfl, rfl, rfl, rfl, by simp, rfl, rfl, rfl, rfl⟩
      · left
        simp [FullVariant.updateProposal, hid, hfind, hr, hs]
    · left
      simp [FullVariant.updateProposal, hid, hfind, hr]
  by_cases ha2 : action = "set_pricing"
  · subst ha2
    by_cases hr : user.role = "coo"
    · by_cases hs : p.status = "pending_pricing"
      · have key : FullVariant.updateProposal store user id "set_pricing" data now =
            FullVariant.commitUpdate store user id "set_pricing" p
              (FullVariant.applySetPricing p user data now) now := by
          simp [FullVariant.updateProposal, hid, hfind, hr, hs]
        right
        rw [key]
        exact ⟨p, _, FullVariant.applySetPricing p user data now, rfl, rfl, rfl,
          rfl, rfl, rfl, rfl, by simp, rfl, rfl, rfl, rfl⟩
      · left
        simp [FullVariant.updateProposal, hid, hfind, hr, hs]
    · left
      simp [FullVariant.updateProposal, hid, hfind, hr]
  by_cases ha3 : action = "director_approve"
  · subst ha3
    by_cases hr : user.role = "director"
    · by_cases hs : p.status = "pending_director_approval"
      · have key : FullVariant.updateProposal store user id "director_approve" data now =
            FullVariant.commitUpdate store user id "director_approve" p
              (FullVariant.applyDirectorApprove p user data now) now := by
          simp [FullVariant.updateProposal, hid, hfind, hr, hs]
        right
        rw [key]
        exact ⟨p, _, FullVariant.applyDirectorApprove p user data now, rfl, rfl, rfl,
          rfl, rfl, rfl, rfl, by simp, rfl, rfl, rfl, rfl⟩
      · left
        simp [FullVariant.updateProposal, hid, hfind, hr, hs]
    · left
      simp [FullVariant.updateProposal, hid, hfind, hr]
  by_cases ha4 : action = "director_reject"
  · subst ha4
    by_cases hr : user.role = "director"
    · have key : FullVariant.updateProposal store user id "director_reject" data now =
          FullVariant.commitUpdate store user id "director_reject" p
            (FullVariant.applyDirectorReject p user data now) now := by
        simp [FullVariant.updateProposal, hid, hfind, hr]
      right
      rw [key]
      exact ⟨p, _, FullVariant.applyDirectorReject p user data now, rfl, rfl, rfl,
        rfl, rfl, rfl, rfl, by simp, rfl, rfl, rfl, rfl⟩
    · left
      simp [FullVariant.updateProposal, hid, hfind, hr]
  by_cases ha5 : action = "submit_to_client"
  · subst ha5
    by_cases hr : user.role = "bdm"
    · by_cases hs : p.status = "approved"
      · have key : FullVariant.updateProposal store user id "submit_to_client" data now =
            FullVariant.commitUpdate store user id "submit_to_client" p
              (FullVariant.applySubmitToClient p user data now) now := by
          simp [FullVariant.updateProposal, hid, hfind, hr, hs]
        right
        rw [key]
        exact ⟨p, _, FullVariant.applySubmitToClient p user data now, rfl, rfl, rfl,
          rfl, rfl, rfl, rfl, by simp, rfl, rfl, rfl, rfl⟩
      · left
        simp [FullVariant.updateProposal, hid, hfind, hr, hs]
    · left
      simp [FullVariant.updateProposal, hid, hfind, hr]
  · left
    simp [FullVariant.updateProposal, hid, hfind, ha1, ha2, ha3, ha4, ha5]

/-- Every outcome of deleteProposal: a rejection leaving the store
unchanged, or a soft delete whose document keeps its changeLog. -/
theorem deleteProposal_shape (store : FullVariant.Store) (user : User) (id now : String) :
    (FullVariant.deleteProposal store user id now).2 = store ∨
    ∃ q p2, FullVariant.getById store.proposals id = some q ∧ p2.id = q.id ∧
      p2.changeLog = q.changeLog ∧
      (FullVariant.deleteProposal store user id now).2.proposals
        = replaceById (fun x => x.id) store.proposals id p2 := by
  by_cases h0 : id = ""
  · left
    simp [FullVariant.deleteProposal, h0]
  rcases hfind : FullVariant.getById store.proposals id with _ | p
  · left
    simp [FullVariant.deleteProposal, h0, hfind]
  by_cases hc1 : p.createdBy ≠ user.uid ∧ user.role ≠ "director"
  · left
    simp [FullVariant.deleteProposal, h0, hfind, hc1]
  by_cases hc2 : p.status ≠ "pending_estimation" ∧ user.role ≠ "director"
  · left
    simp only [FullVariant.deleteProposal, hfind, if_neg h0, if_neg hc1, if_pos hc2]
  · right
    refine ⟨p, { p with
      status := "deleted"
      deletedAt := some now
      deletedBy := some user.uid
      deletedByName := some user.name }, rfl, rfl, rfl, ?_⟩
    simp only [FullVariant.deleteProposal, hfind, if_neg h0, if_neg hc1, if_neg hc2]

/-- Document lookup after an id-keyed overwrite whose new document has at
least as long a changeLog: every looked-up changeLog can only grow. -/
theorem changeLog_mono_replace (l : List FullVariant.Proposal) (id : String)
    (q v : FullVariant.Proposal) (hq : FullVariant.getById l id = some q)
    (hvid : v.id = id) (hlen : q.changeLog.length ≤ v.changeLog.length)
    (pid : String) (p p2 : FullVariant.Proposal)
    (hp : FullVariant.getById l pid = some p)
    (hp2 : FullVariant.getById (replaceById (fun x => x.id) l id v) pid = some p2) :
    p.changeLog.length ≤ p2.changeLog.length := by
  by_cases hpid : pid = id
  · subst hpid
    rw [hp] at hq
    cases hq
    have := findById_replaceById_self (fun x => x.id) l pid v hvid
      (by show (FullVariant.getById l pid).isSome = true; rw [hp]; rfl)
    rw [FullVariant.getById] at hp2
    rw [this] at hp2
    cases hp2
    exact hlen
  · rw [FullVariant.getById,
      findById_replaceById_ne (fun x => x.id) l id pid v hvid hpid] at hp2
    rw [FullVariant.getById] at hp
    rw [hp] at hp2
    cases hp2
    exact le_refl _

/-- createProposal with a fresh document id (the source generates a UUID)
leaves every existing document lookup unchanged. -/
theorem createProposal_preserves_existing (store : FullVariant.Store) (user : User)
    (body : FullVariant.CreateBody) (newId now pid : String)
    (hfresh : ∀ q ∈ store.proposals, q.id ≠ newId)
    (hsome : (FullVariant.getById store.proposals pid).isSome) :
    FullVariant.getById
      (FullVariant.createProposal store user body newId now).2.proposals pid
      = FullVariant.getById store.proposals pid := by
  by_cases hr : user.role = "bdm"
  · by_cases hmiss : body.projectName = "" ∨ body.clientCompany = ""
        ∨ body.projectType = "" ∨ body.scopeOfWork = ""
    · simp [FullVariant.createProposal, hr, hmiss]
    · have hany : store.proposals.any (fun x => x.id == newId) = false := by
        rw [List.any_eq_false]
        intro x hx
        simpa using hfresh x hx
      simp only [FullVariant.createProposal,
        if_neg (show ¬ user.role ≠ "bdm" by simp [hr]), if_neg hmiss]
      simp only [setById, hany, Bool.false_eq_true, if_false]
      exact findById_append_of_isSome _ _ _ _ hsome
  · simp [FullVariant.createProposal, hr]

/-- Claim C3: every accepted workflow transition appends exactly one
changeLog entry and exactly one activity record, both carrying the actor
identity, a readable action label and a timestamp (first conjunct: the
firebase-rest updateProposal; second: the firebase-config updateProposal);
and the changeLog length of any stored proposal never decreases under
updateProposal, deleteProposal, or createProposal with a fresh id (third
to fifth conjuncts). -/
theorem C3_one_changelog_entry_one_activity :
    (∀ (store : RestVariant.Store) (user : User) (id action : String)
        (data : FullVariant.ActionData) (now : String),
      (RestVariant.updateProposal store user id action data now).1.ok = true →
      ∃ p p2, RestVariant.getById store.proposals id = some p ∧
        RestVariant.getById
          (RestVariant.updateProposal store user id action data now).2.proposals id
          = some p2 ∧
        p2.changeLog = p.changeLog ++ [{
          timestamp := now, action := action, performedBy := user.uid,
          performedByName := user.name,
          details := underscoresToSpaces action ++ " completed" }] ∧
        (RestVariant.updateProposal store user id action data now).2.activities
          = store.activities ++ [{
            type := "proposal_" ++ action, proposalId := id,
            projectName := p.projectName, clientCompany := p.clientCompany,
            performedBy := user.uid, performedByName := user.name,
            performedByRole := user.role,
            details := underscoresToSpaces action ++ " completed for " ++ p.projectName,
            timestamp := now, metaAction := none, metaPreviousStatus := none,
            metaNewStatus := none }]) ∧
    (∀ (store : FullVariant.Store) (user : User) (id action : String)
        (data : FullVariant.ActionData) (now : String),
      (FullVariant.updateProposal store user id action data now).1.ok = true →
      ∃ p e p2, FullVariant.getById store.proposals id = some p ∧
        FullVariant.getById
          (FullVariant.updateProposal store user id action data now).2.proposals id
          = some p2 ∧
        p2.changeLog = p.changeLog ++ [e] ∧
        e.performedBy = user.uid ∧ e.performedByName = user.name ∧ e.timestamp = now ∧
        e.action ∈ ["estimation_completed", "pricing_set", "director_approved",
          "director_rejected", "submitted_to_client"] ∧
        ∃ a2, (FullVariant.updateProposal store user id action data now).2.activities
            = store.activities ++ [a2] ∧
          a2.performedBy = user.uid ∧ a2.performedByName = user.name ∧
          a2.performedByRole = user.role ∧ a2.type = "proposal_" ++ action ∧
          a2.timestamp = now) ∧
    (∀ (store : FullVariant.Store) (user : User) (id action : String)
        (data : FullVariant.ActionData) (now pid : String)
        (p p2 : FullVariant.Proposal),
      FullVariant.getById store.proposals pid = some p →
      FullVariant.getById
        (FullVariant.updateProposal store user id action data now).2.proposals pid
        = some p2 →
      p.changeLog.length ≤ p2.changeLog.length) ∧
    (∀ (store : FullVariant.Store) (user : User) (id now pid : String)
        (p p2 : FullVariant.Proposal),
      FullVariant.getById store.proposals pid = some p →
      FullVariant.getById
        (FullVariant.deleteProposal store user id now).2.proposals pid = some p2 →
      p.changeLog.length ≤ p2.changeLog.length) ∧
    (∀ (store : FullVariant.Store) (user : User) (body : FullVariant.CreateBody)
        (newId now pid : String) (p p2 : FullVariant.Proposal),
      (∀ q ∈ store.proposals, q.id ≠ newId) →
      FullVariant.getById store.proposals pid = some p →
      FullVariant.getById
        (FullVariant.createProposal store user body newId now).2.proposals pid
        = some p2 →
      p.changeLog.length ≤ p2.changeLog.length) := by
  refine ⟨?_, ?_, ?_, ?_, ?_⟩
  · intro store user id action data now hok
    by_cases h0 : id = "" ∨ action = ""
    · exfalso
      simp [RestVariant.updateProposal, h0] at hok
    have hid : ¬ id = "" := fun h => h0 (Or.inl h)
    have hact : ¬ action = "" := fun h => h0 (Or.inr h)
    rcases hfind : RestVariant.getById store.proposals id with _ | p
    · exfalso
      simp [RestVariant.updateProposal, hid, hact, hfind] at hok
    rcases happ : RestVariant.applyAction p user action data now with _ | r
    · exfalso
      simp [RestVariant.updateProposal, hid, hact, hfind, happ] at hok
    rcases r with c | p1
    · exfalso
      simp [RestVariant.updateProposal, hid, hact, hfind, happ] at hok
    obtain ⟨hpid1, hcl1⟩ := restApplyAction_ok p user action data now p1 happ
    have hpid : p.id = id := findById_eq_key _ _ _ _ hfind
    have hsome : (RestVariant.getById store.proposals id).isSome = true := by
      rw [hfind]; rfl
    have key : RestVariant.updateProposal store user id action data now =
        (⟨200, true⟩,
          { store with
            proposals := replaceById (fun q => q.id) store.proposals id
              { p1 with changeLog := p.changeLog ++ [{
                timestamp := now, action := action, performedBy := user.uid,
                performedByName := user.name,
                details := underscoresToSpaces action ++ " completed" }] }
            activities := store.activities ++ [{
              type := "proposal_" ++ action, proposalId := id,
              projectName := p.projectName, clientCompany := p.clientCompany,
              performedBy := user.uid, performedByName := user.name,
              performedByRole := user.role,
              details := underscoresToSpaces action ++ " completed for " ++ p.projectName,
              timestamp := now, metaAction := none, metaPreviousStatus := none,
              metaNewStatus := none }] }) := by
      simp [RestVariant.updateProposal, if_neg h0, hfind, happ]
    rw [key]
    refine ⟨p, { p1 with changeLog := p.changeLog ++ [{
      timestamp := now, action := action, performedBy := user.uid,
      performedByName := user.name,
      details := underscoresToSpaces action ++ " completed" }] }, rfl, ?_, rfl, rfl⟩
    exact findById_replaceById_self _ _ _ _ (by simpa [hpid1] using hpid) hsome
  · intro store user id action data now hok
    rcases updateProposal_shape store user id action data now with
      ⟨hfail, _⟩ | ⟨q, e, p2v, hq, _, hid2, hcl, he1, he2, he3, he4, hprops, hacts, _, _⟩
    · rw [hok] at hfail
      cases hfail
    · have hqid : q.id = id := findById_eq_key _ _ _ _ hq
      have hsome : (FullVariant.getById store.proposals id).isSome = true := by
        rw [hq]; rfl
      refine ⟨q, e, p2v, hq, ?_, hcl, he1, he2, he3, he4, _, hacts, rfl, rfl, rfl, rfl, rfl⟩
      rw [hprops]
      exact findById_replaceById_self _ _ _ _ (by rw [hid2, hqid]) hsome
  · intro store user id action data now pid p p2 hp hp2
    rcases updateProposal_shape store user id action data now with
      ⟨_, hsame⟩ | ⟨q, e, p2v, hq, _, hid2, hcl, _, _, _, _, hprops, _, _, _⟩
    · rw [hsame, hp] at hp2
      cases hp2
      exact le_refl _
    · rw [hprops] at hp2
      have hqid : q.id = id := findById_eq_key _ _ _ _ hq
      exact changeLog_mono_replace store.proposals id q p2v hq (by rw [hid2, hqid])
        (by rw [hcl]; simp) pid p p2 hp hp2
  · intro store user id now pid p p2 hp hp2
    rcases deleteProposal_shape store user id now with
      hsame | ⟨q, p2v, hq, hid2, hcl, hprops⟩
    · rw [hsame, hp] at hp2
      cases hp2
      exact le_refl _
    · rw [hprops] at hp2
      have hqid : q.id = id := findById_eq_key _ _ _ _ hq
      exact changeLog_mono_replace store.proposals id q p2v hq (by rw [hid2, hqid])
        (by rw [hcl]) pid p p2 hp hp2
  · intro store user body newId now pid p p2 hfresh hp hp2
    rw [createProposal_preserves_existing store user body newId now pid hfresh
      (by rw [hp]; rfl), hp] at hp2
    cases hp2
    exact le_refl _

/-- Witness for C3: the second conjunct applied to a concrete accepted
add_estimation on the full-generation fixture. -/
theorem C3_one_changelog_entry_one_activity_witness :
    ∃ p e p2, FullVariant.getById (mkStore "pending_estimation").proposals "p1" = some p ∧
      FullVariant.getById
        (FullVariant.updateProposal (mkStore "pending_estimation") uEst "p1"
          "add_estimation" { totalHours := some 10 } "t9").2.proposals "p1" = some p2 ∧
      p2.changeLog = p.changeLog ++ [e] ∧
      e.performedBy = uEst.uid ∧ e.performedByName = uEst.name ∧ e.timestamp = "t9" ∧
      e.action ∈ ["estimation_completed", "pricing_set", "director_approved",
        "director_rejected", "submitted_to_client"] ∧
      ∃ a2, (FullVariant.updateProposal (mkStore "pending_estimation") uEst "p1"
          "add_estimation" { totalHours := some 10 } "t9").2.activities
          = (mkStore "pending_estimation").activities ++ [a2] ∧
        a2.performedBy = uEst.uid ∧ a2.performedByName = uEst.name ∧
        a2.performedByRole = uEst.role ∧ a2.type = "proposal_" ++ "add_estimation" ∧
        a2.timestamp = "t9" :=
  C3_one_changelog_entry_one_activity.2.1 (mkStore "pending_estimation") uEst "p1"
    "add_estimation" { totalHours := some 10 } "t9" (by rfl)
